import Mathlib

/-!
Shallow embedding of `aw_notify/main.py` (the aw-notify threshold-alert
engine): the TTL cache decorator `cache_ttl`, and the `CategoryAlert`
state machine (`thresholds_untriggered`, `time_to_next_threshold`,
`update`, `check`).

Conventions of the embedding:
* timestamps are integer seconds since the Unix epoch in UTC
  (`datetime(1970, 1, 1, tzinfo=timezone.utc)` becomes `0`);
* durations (`timedelta`) are integer seconds, possibly negative;
* a Python function that can raise is modelled with `Option`/`Except`
  (`none`/`.error` marks the raise);
* `get_time()` results (a `dict[str, timedelta]`) are association lists
  from category name to duration.
-/

namespace AwNotify

/-- `time_offset = timedelta(hours=4)`, in seconds. -/
def time_offset : Int := 4 * 3600

/-! ### The TTL cache decorator `cache_ttl` -/

/-- The mutable attributes of the `_cache_ttl` closure:
`_cache_ttl.last_update` (initially the epoch) and `_cache_ttl.cache`
(initially `None`, hence `Option α`). -/
structure CacheState (α : Type) where
  last_update : Int
  cache : Option α
  deriving DecidableEq

/-- The state a freshly decorated function starts with:
`last_update = datetime(1970, 1, 1)`, `cache = None`. -/
def cacheInit (α : Type) : CacheState α := ⟨0, none⟩

/-- Everything one call to the decorated function produces: the new
closure state, the returned value or propagated exception, and whether
the underlying `func` was invoked during the call. -/
structure CacheOutcome (ε α : Type) where
  state : CacheState α
  ret : Except ε (Option α)
  invoked : Bool

/-- One call of `_cache_ttl` at wall-clock time `now`. The behaviour of
the underlying `func()` for this call is `func : Except ε α` (it either
raises `e` or returns a value). Mirrors the source: the guard is
`now - last_update > ttl`; on refresh, `last_update = now` is assigned
*before* `func` is called, so when `func` raises, the new timestamp is
kept while the cached value is untouched and the exception propagates. -/
def cache_ttl_call {ε α : Type} (ttl : Int) (func : Except ε α) (now : Int)
    (s : CacheState α) : CacheOutcome ε α :=
  if ttl < now - s.last_update then
    match func with
    | .error e => ⟨⟨now, s.cache⟩, .error e, true⟩
    | .ok v => ⟨⟨now, some v⟩, .ok (some v), true⟩
  else ⟨s, .ok s.cache, false⟩

/-! ### CategoryAlert -/

/-- The fields of a `CategoryAlert` (the `label` field only feeds the
notification text and is omitted; notifications are reported as the
list of threshold values fired). -/
structure CategoryAlert where
  category : String
  thresholds : List Int
  max_triggered : Int
  time_spent : Int
  last_check : Int
  deriving DecidableEq

/-- `CategoryAlert.__init__`: `max_triggered = timedelta()`,
`time_spent = timedelta()`, `last_check = datetime(1970, 1, 1)`. -/
def CategoryAlert.init (category : String) (thresholds : List Int) : CategoryAlert :=
  ⟨category, thresholds, 0, 0, 0⟩

/-- `thresholds_untriggered`: `[t for t in self.thresholds if t > self.max_triggered]`. -/
def CategoryAlert.thresholds_untriggered (a : CategoryAlert) : List Int :=
  a.thresholds.filter (fun t => a.max_triggered < t)

/-- Python's `min` on a list of durations; `none` models the
`ValueError` raised on an empty sequence. -/
def listMin : List Int → Option Int
  | [] => none
  | t :: ts => some (ts.foldl min t)

/-- The `day_end` computation in `time_to_next_threshold`:
`now.replace(hour=0, minute=0, second=0, microsecond=0)` is the floor of
`now` to a multiple of 86400 s, bumped by one day when strictly below
`now`. -/
def next_day_end (now : Int) : Int :=
  let d := 86400 * (Int.ediv now 86400)
  if d < now then d + 86400 else d

/-- `CategoryAlert.time_to_next_threshold`, evaluated with
`datetime.now(timezone.utc) = now`. `none` models the `ValueError` that
`min(self.thresholds)` raises when `thresholds` is empty. -/
def CategoryAlert.time_to_next_threshold (a : CategoryAlert) (now : Int) : Option Int :=
  if a.thresholds_untriggered = [] then
    match listMin a.thresholds with
    | none => none
    | some m => some ((next_day_end now - now + time_offset) + m)
  else
    match listMin a.thresholds_untriggered with
    | none => none
    | some m => some (m - a.time_spent)

/-- Dict lookup `get_time()[self.category]`; `none` models the `KeyError`. -/
def lookupCat : List (String × Int) → String → Option Int
  | [], _ => none
  | (k, v) :: rest, c => if k = c then some v else lookupCat rest c

/-- `CategoryAlert.update`, evaluated at wall-clock time `now`. The
behaviour of the `get_time()` call is passed in as
`get_time_res : Except Unit (List (String × Int))` (either the raised
exception or the returned dict). The outer `none` models the uncaught
`ValueError` when `time_to_next_threshold` itself raises; inside the
guard, a raising `get_time()` or a missing key is caught by the
`except Exception` block (only logged), leaving the alert unchanged. -/
def CategoryAlert.update (a : CategoryAlert) (now : Int)
    (get_time_res : Except Unit (List (String × Int))) : Option CategoryAlert :=
  match a.time_to_next_threshold now with
  | none => none
  | some ttt =>
    if a.last_check + ttt < now then
      match get_time_res with
      | .error _ => some a
      | .ok m =>
        match lookupCat m a.category with
        | none => some a
        | some v => some { a with time_spent := v, last_check := now }
    else some a

/-- The `for thres in sorted(...) / if thres <= self.time_spent / break`
loop of `check`: the first element of the (descending) list that is
`≤ time_spent`, if any. -/
def checkLoop (time_spent : Int) : List Int → Option Int
  | [] => none
  | t :: ts => if t ≤ time_spent then some t else checkLoop time_spent ts

/-- `CategoryAlert.check`: walk the untriggered thresholds in descending
order (`sorted(..., reverse=True)`); on the first one that is
`≤ time_spent`, set `max_triggered` and emit one notification (reported
as the fired threshold value), then `break`. -/
def CategoryAlert.check (a : CategoryAlert) : CategoryAlert × List Int :=
  match checkLoop a.time_spent (List.insertionSort (· ≥ ·) a.thresholds_untriggered) with
  | some t => ({ a with max_triggered := t }, [t])
  | none => (a, [])

/-- One step of the alert's life after construction: an `update()` call
(tagged with its wall-clock time and the `get_time()` behaviour) or a
`check()` call. -/
inductive AlertOp where
  | update (now : Int) (get_time_res : Except Unit (List (String × Int)))
  | check

/-- Apply one operation; `none` propagates an uncaught exception. -/
def CategoryAlert.applyOp (a : CategoryAlert) : AlertOp → Option CategoryAlert
  | .update now r => a.update now r
  | .check => some (a.check).1

/-- Run a whole sequence of `update`/`check` calls from a given state. -/
def runOps (a : CategoryAlert) : List AlertOp → Option CategoryAlert
  | [] => some a
  | op :: ops =>
    match a.applyOp op with
    | none => none
    | some b => runOps b ops

/-- Modelled from the spec (§4.3, claim C3): "the next day boundary per
the 4-hour-shifted day start (the next instant of the form midnight UTC
+ 4h that lies in the future)" — the least `b > now` with
`b ≡ time_offset [mod 86400]`. -/
def spec_next_shifted_boundary (now : Int) : Int :=
  now - Int.emod (now - time_offset) 86400 + 86400

/-- Concrete alert for exercising `check`: thresholds 15m/30m/1h (in
seconds), nothing triggered yet, 45 minutes spent. -/
def wAlertC1 : CategoryAlert := ⟨"Work", [900, 1800, 3600], 0, 2700, 0⟩

/-- Concrete alert: thresholds `{1h}`, `max_triggered = 0`,
`time_spent = 40m`. -/
def wAlertC2 : CategoryAlert := ⟨"Twitter", [3600], 0, 2400, 0⟩

/-- Concrete alert with its only threshold (15m) already triggered. -/
def wAlertC3 : CategoryAlert := ⟨"Twitter", [900], 900, 0, 0⟩

/-! ### Helper lemmas -/

lemma mem_thresholds_untriggered {a : CategoryAlert} {t : Int} :
    t ∈ a.thresholds_untriggered ↔ t ∈ a.thresholds ∧ a.max_triggered < t := by
  simp [CategoryAlert.thresholds_untriggered]

lemma foldl_min_mem_le (ts : List Int) : ∀ t : Int,
    (ts.foldl min t ∈ t :: ts) ∧ (∀ u ∈ t :: ts, ts.foldl min t ≤ u) := by
  induction ts with
  | nil =>
    intro t
    refine ⟨List.mem_singleton.mpr rfl, ?_⟩
    intro u hu
    rw [List.mem_singleton] at hu
    simp [hu]
  | cons b bs ih =>
    intro t
    have h := ih (min t b)
    have hfold : (b :: bs).foldl min t = bs.foldl min (min t b) := rfl
    refine ⟨?_, ?_⟩
    · rw [hfold]
      rcases List.mem_cons.mp h.1 with h1 | h1
      · rw [h1]
        rcases le_total t b with hc | hc
        · simp [min_eq_left hc]
        · simp [min_eq_right hc]
      · exact List.mem_cons_of_mem _ (List.mem_cons_of_mem _ h1)
    · intro u hu
      rw [hfold]
      have hhead := h.2 (min t b) (List.mem_cons_self _ _)
      rcases List.mem_cons.mp hu with rfl | hu'
      · exact le_trans hhead (min_le_left _ _)
      · rcases List.mem_cons.mp hu' with rfl | hu''
        · exact le_trans hhead (min_le_right _ _)
        · exact h.2 u (List.mem_cons_of_mem _ hu'')

lemma listMin_spec {l : List Int} (h : l ≠ []) :
    ∃ m, listMin l = some m ∧ m ∈ l ∧ ∀ u ∈ l, m ≤ u := by
  cases l with
  | nil => exact absurd rfl h
  | cons t ts =>
    exact ⟨ts.foldl min t, rfl, (foldl_min_mem_le ts t).1, (foldl_min_mem_le ts t).2⟩

lemma checkLoop_cons (s a : Int) (as : List Int) :
    checkLoop s (a :: as) = if a ≤ s then some a else checkLoop s as := rfl

lemma checkLoop_sorted_spec (s : Int) :
    ∀ l : List Int, List.Sorted (· ≥ ·) l →
      ((∀ t, checkLoop s l = some t → t ∈ l ∧ t ≤ s ∧ ∀ u ∈ l, u ≤ s → u ≤ t)
        ∧ (checkLoop s l = none → ∀ u ∈ l, ¬ u ≤ s)) := by
  intro l
  induction l with
  | nil =>
    intro _
    constructor
    · intro t ht
      simp [checkLoop] at ht
    · intro _ u hu
      simp at hu
  | cons a as ih =>
    intro hs
    rw [List.sorted_cons] at hs
    obtain ⟨ha, hs2⟩ := hs
    have ihs := ih hs2
    constructor
    · intro t ht
      rw [checkLoop_cons] at ht
      by_cases hc : a ≤ s
      · rw [if_pos hc, Option.some.injEq] at ht
        subst ht
        refine ⟨List.mem_cons_self _ _, hc, ?_⟩
        intro u hu _
        rcases List.mem_cons.mp hu with rfl | hu'
        · exact le_refl _
        · exact ha u hu'
      · rw [if_neg hc] at ht
        obtain ⟨hmem, hle, hmax⟩ := ihs.1 t ht
        refine ⟨List.mem_cons_of_mem _ hmem, hle, ?_⟩
        intro u hu hus
        rcases List.mem_cons.mp hu with rfl | hu'
        · exact absurd hus hc
        · exact hmax u hu' hus
    · intro hn u hu
      rw [checkLoop_cons] at hn
      by_cases hc : a ≤ s
      · rw [if_pos hc] at hn
        exact absurd hn (Option.some_ne_none _)
      · rw [if_neg hc] at hn
        rcases List.mem_cons.mp hu with rfl | hu'
        · exact hc
        · exact ihs.2 hn u hu'

lemma check_spec (a : CategoryAlert) :
    ((∃ t ∈ a.thresholds_untriggered, t ≤ a.time_spent) →
      ∃ t, t ∈ a.thresholds_untriggered ∧ t ≤ a.time_spent
        ∧ (∀ u ∈ a.thresholds_untriggered, u ≤ a.time_spent → u ≤ t)
        ∧ a.check = ({ a with max_triggered := t }, [t]))
  ∧ ((∀ t ∈ a.thresholds_untriggered, ¬ t ≤ a.time_spent) →
      a.check = (a, [])) := by
  have hsort : List.Sorted (· ≥ ·) (List.insertionSort (· ≥ ·) a.thresholds_untriggered) :=
    List.sorted_insertionSort _ _
  have hperm : ∀ x : Int,
      x ∈ List.insertionSort (· ≥ ·) a.thresholds_untriggered ↔
        x ∈ a.thresholds_untriggered :=
    fun x => (List.perm_insertionSort _ _).mem_iff
  have hspec := checkLoop_sorted_spec a.time_spent _ hsort
  cases hc : checkLoop a.time_spent (List.insertionSort (· ≥ ·) a.thresholds_untriggered) with
  | none =>
    have hnone := hspec.2 hc
    constructor
    · rintro ⟨t, htm, hts⟩
      exact absurd hts (hnone t ((hperm t).mpr htm))
    · intro _
      simp only [CategoryAlert.check, hc]
  | some t =>
    obtain ⟨hmem, hle, hmax⟩ := hspec.1 t hc
    constructor
    · intro _
      refine ⟨t, (hperm t).mp hmem, hle, ?_, ?_⟩
      · intro u hu hus
        exact hmax u ((hperm u).mpr hu) hus
      · simp only [CategoryAlert.check, hc]
    · intro hno
      exact absurd hle (hno t ((hperm t).mp hmem))

lemma emod_facts (a : Int) :
    86400 * (Int.ediv a 86400) + Int.emod a 86400 = a
  ∧ 0 ≤ Int.emod a 86400 ∧ Int.emod a 86400 < 86400 :=
  ⟨Int.ediv_add_emod a 86400, Int.emod_nonneg a (by norm_num),
    Int.emod_lt_of_pos a (by norm_num)⟩

/-- `spec_next_shifted_boundary` indeed implements the spec's words: it
is the least instant strictly after `now` congruent to `time_offset`
modulo one day. -/
lemma spec_next_shifted_boundary_is_least (now : Int) :
    now < spec_next_shifted_boundary now
  ∧ Int.emod (spec_next_shifted_boundary now) 86400 = time_offset
  ∧ ∀ c, now < c → Int.emod c 86400 = time_offset →
      spec_next_shifted_boundary now ≤ c := by
  have h1 := emod_facts (now - time_offset)
  have h2 := emod_facts (spec_next_shifted_boundary now)
  unfold spec_next_shifted_boundary time_offset at *
  refine ⟨by omega, by omega, ?_⟩
  intro c hc hcmod
  have h3 := emod_facts c
  omega

/-- How the code's "wait until tomorrow" quantity compares with the
spec's "next 4h-shifted day boundary": they agree exactly when the
time of day is midnight or at/after 04:00 UTC, and the code overshoots
by one day when strictly between midnight and 04:00 UTC. -/
lemma code_vs_spec_boundary (now : Int) :
    (Int.emod now 86400 = 0 ∨ 14400 ≤ Int.emod now 86400 →
      next_day_end now - now + time_offset = spec_next_shifted_boundary now - now)
  ∧ (0 < Int.emod now 86400 → Int.emod now 86400 < 14400 →
      next_day_end now - now + time_offset = spec_next_shifted_boundary now - now + 86400) := by
  have h1 := emod_facts (now - time_offset)
  have h2 := emod_facts now
  unfold time_offset at h1
  simp only [next_day_end, spec_next_shifted_boundary, time_offset]
  constructor
  · intro h
    split <;> omega
  · intro hl hr
    split <;> omega

lemma update_cases (a : CategoryAlert) (now : Int) (r : Except Unit (List (String × Int)))
    (b : CategoryAlert) (h : a.update now r = some b) :
    b = a ∨ ∃ v, b = { a with time_spent := v, last_check := now } := by
  unfold CategoryAlert.update at h
  split at h
  · exact absurd h (by simp)
  · split at h
    · split at h
      · exact Or.inl (Option.some.inj h).symm
      · split at h
        · exact Or.inl (Option.some.inj h).symm
        · exact Or.inr ⟨_, (Option.some.inj h).symm⟩
    · exact Or.inl (Option.some.inj h).symm

lemma check_fst_cases (a : CategoryAlert) :
    (a.check).1 = a
  ∨ ∃ t, t ∈ a.thresholds_untriggered ∧ (a.check).1 = { a with max_triggered := t } := by
  have hsort : List.Sorted (· ≥ ·) (List.insertionSort (· ≥ ·) a.thresholds_untriggered) :=
    List.sorted_insertionSort _ _
  have hspec := checkLoop_sorted_spec a.time_spent _ hsort
  unfold CategoryAlert.check
  cases hc : checkLoop a.time_spent (List.insertionSort (· ≥ ·) a.thresholds_untriggered) with
  | none => exact Or.inl rfl
  | some t =>
    refine Or.inr ⟨t, ?_, rfl⟩
    exact (List.perm_insertionSort _ _).mem_iff.mp (hspec.1 t hc).1

lemma applyOp_step (a : CategoryAlert) (op : AlertOp) (b : CategoryAlert)
    (h : a.applyOp op = some b) :
    a.max_triggered ≤ b.max_triggered ∧ b.thresholds = a.thresholds
  ∧ (b.max_triggered = a.max_triggered ∨ b.max_triggered ∈ a.thresholds) := by
  cases op with
  | update now r =>
    rcases update_cases a now r b h with rfl | ⟨v, rfl⟩
    · exact ⟨le_refl _, rfl, Or.inl rfl⟩
    · exact ⟨le_refl _, rfl, Or.inl rfl⟩
  | check =>
    have hb : b = (a.check).1 := (Option.some.inj h).symm
    rcases check_fst_cases a with h1 | ⟨t, htm, h1⟩
    · rw [hb, h1]
      exact ⟨le_refl _, rfl, Or.inl rfl⟩
    · rw [hb, h1]
      obtain ⟨ht1, ht2⟩ := mem_thresholds_untriggered.mp htm
      exact ⟨le_of_lt ht2, rfl, Or.inr ht1⟩

lemma runOps_facts (ops : List AlertOp) : ∀ (a b : CategoryAlert),
    runOps a ops = some b →
    a.max_triggered ≤ b.max_triggered ∧ b.thresholds = a.thresholds
  ∧ (b.max_triggered = a.max_triggered ∨ b.max_triggered ∈ a.thresholds) := by
  induction ops with
  | nil =>
    intro a b h
    have hba : b = a := (Option.some.inj h).symm
    subst hba
    exact ⟨le_refl _, rfl, Or.inl rfl⟩
  | cons op ops ih =>
    intro a b h
    unfold runOps at h
    split at h
    · exact absurd h (by simp)
    · rename_i c heq
      obtain ⟨s1, s2, s3⟩ := applyOp_step a op c heq
      obtain ⟨i1, i2, i3⟩ := ih c b h
      refine ⟨le_trans s1 i1, i2.trans s2, ?_⟩
      rcases i3 with i3 | i3
      · rw [i3]
        exact s3
      · rw [s2] at i3
        exact Or.inr i3

/-! ### Claim theorems -/

/-- C1: for every `CategoryAlert`, `check()` sets `max_triggered` to the
maximum threshold `t ∈ thresholds` with `t ≤ time_spent` among the
not-yet-triggered ones (those strictly above the old `max_triggered`)
and emits exactly one notification for that crossing; if no such `t`
exists, the alert is unchanged and no notification is emitted; at most
one notification is emitted per invocation. -/
theorem check_fires_highest_untriggered (a : CategoryAlert) :
    (a.check).2.length ≤ 1
  ∧ (∀ t ∈ a.thresholds, a.max_triggered < t → t ≤ a.time_spent →
      ((a.check).1.max_triggered ∈ a.thresholds
        ∧ a.max_triggered < (a.check).1.max_triggered
        ∧ (a.check).1.max_triggered ≤ a.time_spent
        ∧ (∀ u ∈ a.thresholds, a.max_triggered < u → u ≤ a.time_spent →
            u ≤ (a.check).1.max_triggered)
        ∧ (a.check).2 = [(a.check).1.max_triggered]
        ∧ (a.check).1 = { a with max_triggered := (a.check).1.max_triggered }))
  ∧ ((∀ t ∈ a.thresholds, a.max_triggered < t → ¬ t ≤ a.time_spent) →
      (a.check).1 = a ∧ (a.check).2 = []) := by
  have hcs := check_spec a
  refine ⟨?_, ?_, ?_⟩
  · rcases hc : checkLoop a.time_spent (List.insertionSort (· ≥ ·) a.thresholds_untriggered)
      with _ | t
    · simp [CategoryAlert.check, hc]
    · simp [CategoryAlert.check, hc]
  · intro t htm hgt hle
    obtain ⟨u, hum, hule, humax, heq⟩ :=
      hcs.1 ⟨t, mem_thresholds_untriggered.mpr ⟨htm, hgt⟩, hle⟩
    rw [heq]
    obtain ⟨hut, hugt⟩ := mem_thresholds_untriggered.mp hum
    exact ⟨hut, hugt, hule,
      fun v hv hv1 hv2 => humax v (mem_thresholds_untriggered.mpr ⟨hv, hv1⟩) hv2, rfl, rfl⟩
  · intro hno
    have heq := hcs.2 (fun t ht =>
      hno t (mem_thresholds_untriggered.mp ht).1 (mem_thresholds_untriggered.mp ht).2)
    rw [heq]
    exact ⟨rfl, rfl⟩

/-- C1 witness: thresholds 15m/30m/1h with `time_spent = 45m` fires
exactly one notification, for 30m. -/
theorem check_fires_highest_untriggered_witness :
    ((wAlertC1.check).1.max_triggered = 1800 ∧ (wAlertC1.check).2 = [1800])
  ∧ ((wAlertC1.check).1.max_triggered ∈ wAlertC1.thresholds
      ∧ wAlertC1.max_triggered < (wAlertC1.check).1.max_triggered
      ∧ (wAlertC1.check).1.max_triggered ≤ wAlertC1.time_spent
      ∧ (∀ u ∈ wAlertC1.thresholds, wAlertC1.max_triggered < u → u ≤ wAlertC1.time_spent →
          u ≤ (wAlertC1.check).1.max_triggered)
      ∧ (wAlertC1.check).2 = [(wAlertC1.check).1.max_triggered]
      ∧ (wAlertC1.check).1 = { wAlertC1 with max_triggered := (wAlertC1.check).1.max_triggered }) :=
  ⟨by decide,
    (check_fires_highest_untriggered wAlertC1).2.1 1800 (by decide) (by decide) (by decide)⟩

/-- C2: when the untriggered-threshold list is non-empty,
`time_to_next_threshold` returns `min(untriggered) - time_spent`
(possibly negative or zero). -/
theorem time_to_next_threshold_untriggered_nonempty (a : CategoryAlert) (now : Int)
    (h : a.thresholds_untriggered ≠ []) :
    ∃ m, m ∈ a.thresholds_untriggered ∧ (∀ u ∈ a.thresholds_untriggered, m ≤ u) ∧
      a.time_to_next_threshold now = some (m - a.time_spent) := by
  obtain ⟨m, hm, hmem, hmin⟩ := listMin_spec h
  refine ⟨m, hmem, hmin, ?_⟩
  unfold CategoryAlert.time_to_next_threshold
  rw [if_neg h, hm]

/-- C2 witness: thresholds `{1h}`, `max_triggered = 0`,
`time_spent = 40m` gives `time_to_next_threshold = 20m` (1200 s). -/
theorem time_to_next_threshold_untriggered_nonempty_witness :
    (∃ m, m ∈ wAlertC2.thresholds_untriggered
      ∧ (∀ u ∈ wAlertC2.thresholds_untriggered, m ≤ u)
      ∧ wAlertC2.time_to_next_threshold 0 = some (m - wAlertC2.time_spent))
  ∧ wAlertC2.time_to_next_threshold 0 = some 1200 :=
  ⟨time_to_next_threshold_untriggered_nonempty wAlertC2 0 (by decide), by decide⟩

/-- C3 counterexample: with every threshold triggered, at 02:00 UTC
(`now = 7200`) the code returns `some 94500` (26h15m: time to *next
midnight* plus 4h plus 15m), while the claimed value — time to the next
instant of the form midnight UTC + 4h, here 04:00 UTC the same day,
plus `min(thresholds)` — is `8100` (2h15m). -/
theorem time_to_next_threshold_day_boundary_cex :
    wAlertC3.time_to_next_threshold 7200 = some 94500
  ∧ (spec_next_shifted_boundary 7200 - 7200) + 900 = 8100
  ∧ (94500 : Int) ≠ 8100 := by decide

/-- C3 (amended): with all thresholds triggered, the code returns the
time to the next midnight UTC (zero when `now` is exactly midnight)
plus 4h plus `min(thresholds)`. This equals the time to the next
midnight-UTC+4h boundary plus `min(thresholds)` whenever the time of
day is exactly midnight or at/after 04:00 UTC (covering the 23:50
example), but exceeds it by 24 hours strictly between 00:00 and 04:00
UTC. -/
theorem time_to_next_threshold_all_triggered (a : CategoryAlert) (now m : Int)
    (hu : a.thresholds_untriggered = []) (hm : listMin a.thresholds = some m) :
    a.time_to_next_threshold now = some ((next_day_end now - now + time_offset) + m)
  ∧ (Int.emod now 86400 = 0 ∨ 14400 ≤ Int.emod now 86400 →
      a.time_to_next_threshold now = some ((spec_next_shifted_boundary now - now) + m))
  ∧ (0 < Int.emod now 86400 → Int.emod now 86400 < 14400 →
      a.time_to_next_threshold now = some ((spec_next_shifted_boundary now - now) + m + 86400)) := by
  have hb := code_vs_spec_boundary now
  have h0 : a.time_to_next_threshold now
      = some ((next_day_end now - now + time_offset) + m) := by
    unfold CategoryAlert.time_to_next_threshold
    rw [if_pos hu, hm]
  refine ⟨h0, ?_, ?_⟩
  · intro h
    rw [h0, hb.1 h]
  · intro h1 h2
    have harith : (spec_next_shifted_boundary now - now + 86400) + m
        = (spec_next_shifted_boundary now - now) + m + 86400 := by ring
    rw [h0, hb.2 h1 h2, harith]

/-- C3 witness: the spec's own example — at 23:50 UTC (`now = 85800`)
with `min(thresholds) = 15m` all triggered, the result is the time to
04:00 UTC next day plus 15 minutes (15900 s). -/
theorem time_to_next_threshold_all_triggered_witness :
    wAlertC3.time_to_next_threshold 85800
      = some ((spec_next_shifted_boundary 85800 - 85800) + 900)
  ∧ wAlertC3.time_to_next_threshold 85800 = some 15900 :=
  ⟨(time_to_next_threshold_all_triggered wAlertC3 85800 900 (by decide) (by decide)).2.1
      (Or.inr (by decide)),
    by decide⟩

/-- C4 counterexample: for an alert built with an empty thresholds
list, `thresholds_untriggered` is empty (so the "next day" branch is
taken) but `time_to_next_threshold` does *not* return a value: it hits
`min(self.thresholds)` on an empty list, modelled as `none`
(`ValueError` in Python). -/
theorem empty_thresholds_cex :
    (CategoryAlert.mk "X" [] 0 0 0).thresholds_untriggered = []
  ∧ (CategoryAlert.mk "X" [] 0 0 0).time_to_next_threshold 0 = none := by decide

/-- C4 (amended): with an empty thresholds list,
`thresholds_untriggered` is always empty and `time_to_next_threshold`
always enters the "next day" branch but raises (`min` of an empty
sequence) instead of returning a value. -/
theorem empty_thresholds_amended (a : CategoryAlert) (h : a.thresholds = []) :
    a.thresholds_untriggered = [] ∧ ∀ now, a.time_to_next_threshold now = none := by
  have hu : a.thresholds_untriggered = [] := by
    simp [CategoryAlert.thresholds_untriggered, h]
  refine ⟨hu, fun now => ?_⟩
  unfold CategoryAlert.time_to_next_threshold
  rw [if_pos hu, h]
  rfl

/-- C4 witness: a concrete empty-thresholds alert. -/
theorem empty_thresholds_amended_witness :
    (CategoryAlert.mk "Y" [] 0 500 0).thresholds_untriggered = []
  ∧ ∀ now, (CategoryAlert.mk "Y" [] 0 500 0).time_to_next_threshold now = none :=
  empty_thresholds_amended (CategoryAlert.mk "Y" [] 0 500 0) (by decide)

/-- C5 counterexample: a first call (TTL expired) whose underlying
operation raises leaves the refresh timestamp *modified* — it is
advanced from the initial epoch to the call time — contradicting the
claim that both the stored value and the timestamp are unmodified. -/
theorem cache_error_unmodified_cex :
    (cache_ttl_call 60 (Except.error ()) 100 (cacheInit Int)).state.last_update
      ≠ (cacheInit Int).last_update := by decide

/-- C5 (amended): when the TTL has expired and the underlying operation
raises, the exception propagates to the immediate caller and the stored
value is unmodified, but the last-refresh timestamp *is* advanced to
the call time (it is assigned before the operation is invoked). -/
theorem cache_error_keeps_value_advances_timestamp {ε α : Type} (ttl now : Int)
    (s : CacheState α) (e : ε) (h : ttl < now - s.last_update) :
    cache_ttl_call ttl (Except.error e) now s
      = ⟨⟨now, s.cache⟩, Except.error e, true⟩ := by
  unfold cache_ttl_call
  rw [if_pos h]

/-- C5 witness: concrete raising call against the initial state. -/
theorem cache_error_keeps_value_advances_timestamp_witness :
    cache_ttl_call 60 (Except.error ()) 100 (cacheInit Int)
      = ⟨⟨100, (cacheInit Int).cache⟩, Except.error (), true⟩ :=
  cache_error_keeps_value_advances_timestamp 60 100 (cacheInit Int) () (by decide)

/-- C6: a call within the TTL window (`now - last_refresh ≤ ttl`)
returns the cached value without invoking the underlying operation; a
call after expiry invokes it exactly once, stores the result and
refresh timestamp, and returns the new value; and a second call within
the TTL of a refresh returns the identical result without re-invoking. -/
theorem cache_ttl_hit_and_miss {α : Type} (ttl now : Int) (s : CacheState α)
    (f : Except Unit α) :
    (now - s.last_update ≤ ttl →
      cache_ttl_call ttl f now s = ⟨s, Except.ok s.cache, false⟩)
  ∧ (ttl < now - s.last_update → ∀ v, f = Except.ok v →
      cache_ttl_call ttl f now s = ⟨⟨now, some v⟩, Except.ok (some v), true⟩)
  ∧ (ttl < now - s.last_update → ∀ v, f = Except.ok v →
      ∀ t₂ (g : Except Unit α), t₂ - now ≤ ttl →
        cache_ttl_call ttl g t₂ (cache_ttl_call ttl f now s).state
          = ⟨⟨now, some v⟩, Except.ok (some v), false⟩) := by
  refine ⟨?_, ?_, ?_⟩
  · intro h
    unfold cache_ttl_call
    rw [if_neg (by omega)]
  · intro h v hv
    subst hv
    unfold cache_ttl_call
    rw [if_pos h]
  · intro h v hv t₂ g h2
    subst hv
    have hs : (cache_ttl_call ttl (Except.ok v : Except Unit α) now s).state
        = ⟨now, some v⟩ := by
      unfold cache_ttl_call
      rw [if_pos h]
    rw [hs]
    unfold cache_ttl_call
    rw [if_neg (show ¬ ttl < t₂ - now by omega)]

/-- C6 witness: a hit at `now = 50`, a miss-and-refresh at `now = 100`,
and a second call at `now = 130` returning the refreshed value without
invoking the underlying operation. -/
theorem cache_ttl_hit_and_miss_witness :
    cache_ttl_call 60 (Except.ok 7 : Except Unit Int) 50 ⟨0, some 5⟩
      = ⟨⟨0, some 5⟩, Except.ok (some 5), false⟩
  ∧ cache_ttl_call 60 (Except.ok 7 : Except Unit Int) 100 ⟨0, some 5⟩
      = ⟨⟨100, some 7⟩, Except.ok (some 7), true⟩
  ∧ cache_ttl_call 60 (Except.ok 9 : Except Unit Int) 130
      (cache_ttl_call 60 (Except.ok 7 : Except Unit Int) 100 ⟨0, some 5⟩).state
      = ⟨⟨100, some 7⟩, Except.ok (some 7), false⟩ :=
  ⟨(cache_ttl_hit_and_miss 60 50 ⟨0, some 5⟩ (Except.ok 7)).1 (by decide),
   (cache_ttl_hit_and_miss 60 100 ⟨0, some 5⟩ (Except.ok 7)).2.1 (by decide) 7 rfl,
   (cache_ttl_hit_and_miss 60 100 ⟨0, some 5⟩ (Except.ok 7)).2.2 (by decide) 7 rfl
      130 (Except.ok 9) (by decide)⟩

/-- C7: `update()` recomputes `time_spent` (and advances `last_check`)
iff the wall-clock time since `last_check` exceeds
`time_to_next_threshold`; otherwise it is a no-op leaving every field
unchanged. -/
theorem update_iff_past_threshold (a : CategoryAlert) (now ttt : Int)
    (r : Except Unit (List (String × Int)))
    (h : a.time_to_next_threshold now = some ttt) :
    (¬ a.last_check + ttt < now → a.update now r = some a)
  ∧ (a.last_check + ttt < now → ∀ m v, r = Except.ok m → lookupCat m a.category = some v →
      a.update now r = some { a with time_spent := v, last_check := now })
  ∧ (∀ b, a.update now r = some b → b ≠ a → a.last_check + ttt < now) := by
  refine ⟨?_, ?_, ?_⟩
  · intro hc
    simp only [CategoryAlert.update, h]
    rw [if_neg hc]
  · intro hc m v hm hv
    subst hm
    simp only [CategoryAlert.update, h, hv]
    rw [if_pos hc]
  · intro b hb hbne
    by_cases hc : a.last_check + ttt < now
    · exact hc
    · exfalso
      apply hbne
      have hna : a.update now r = some a := by
        simp only [CategoryAlert.update, h]
        rw [if_neg hc]
      rw [hna] at hb
      exact (Option.some.inj hb).symm

/-- C7 witness: the same shape of alert refreshes when past the
threshold time and is a no-op when not. -/
theorem update_iff_past_threshold_witness :
    ((CategoryAlert.mk "Work" [900] 0 0 0).update 1000 (Except.ok [("Work", 1234)])
      = some { CategoryAlert.mk "Work" [900] 0 0 0 with time_spent := 1234, last_check := 1000 })
  ∧ ((CategoryAlert.mk "Work" [900] 0 0 500).update 600 (Except.ok [("Work", 1234)])
      = some (CategoryAlert.mk "Work" [900] 0 0 500)) :=
  ⟨(update_iff_past_threshold (CategoryAlert.mk "Work" [900] 0 0 0) 1000 900
      (Except.ok [("Work", 1234)]) (by decide)).2.1 (by decide) [("Work", 1234)] 1234 rfl
      (by decide),
   (update_iff_past_threshold (CategoryAlert.mk "Work" [900] 0 0 500) 600 900
      (Except.ok [("Work", 1234)]) (by decide)).1 (by decide)⟩

/-- C8: when the query inside `update()` fails — `get_time()` raises,
or the alert's category is missing from the returned dict — `update()`
leaves both `time_spent` and `last_check` unchanged and does not raise
(the result is `some` of the unchanged alert, the error being only
logged). -/
theorem update_query_failure_no_change (a : CategoryAlert) (now ttt : Int)
    (h : a.time_to_next_threshold now = some ttt) :
    (∀ e, a.update now (Except.error e) = some a)
  ∧ (∀ m, lookupCat m a.category = none → a.update now (Except.ok m) = some a) := by
  constructor
  · intro e
    simp only [CategoryAlert.update, h]
    split <;> rfl
  · intro m hm
    simp only [CategoryAlert.update, h, hm]
    split <;> rfl

/-- C8 witness: a raising query, and a dict without the alert's
category, both leave the alert unchanged. -/
theorem update_query_failure_no_change_witness :
    ((CategoryAlert.mk "Work" [900] 0 0 0).update 1000 (Except.error ())
      = some (CategoryAlert.mk "Work" [900] 0 0 0))
  ∧ ((CategoryAlert.mk "Work" [900] 0 0 0).update 1000 (Except.ok [("Twitter", 55)])
      = some (CategoryAlert.mk "Work" [900] 0 0 0)) :=
  ⟨(update_query_failure_no_change (CategoryAlert.mk "Work" [900] 0 0 0) 1000 900
      (by decide)).1 (),
   (update_query_failure_no_change (CategoryAlert.mk "Work" [900] 0 0 0) 1000 900
      (by decide)).2 [("Twitter", 55)] (by decide)⟩

/-- C9: along every sequence of `update()`/`check()` calls from
construction, `max_triggered` is always the zero duration or a member
of `thresholds`, and it never decreases (along any continuation of the
run). -/
theorem max_triggered_invariant (category : String) (T : List Int)
    (ops ops₂ : List AlertOp) (b c : CategoryAlert)
    (h1 : runOps (CategoryAlert.init category T) ops = some b)
    (h2 : runOps b ops₂ = some c) :
    (b.max_triggered = 0 ∨ b.max_triggered ∈ T)
  ∧ b.max_triggered ≤ c.max_triggered := by
  have hb := runOps_facts ops _ b h1
  have hc := runOps_facts ops₂ b c h2
  exact ⟨hb.2.2, hc.1⟩

/-- C9 witness: a concrete run — refresh to 1000 s, fire the 900 s
threshold, then a further `check` that fires nothing. -/
theorem max_triggered_invariant_witness :
    ((⟨"Work", [900, 1800], 900, 1000, 1000⟩ : CategoryAlert).max_triggered = 0
      ∨ (⟨"Work", [900, 1800], 900, 1000, 1000⟩ : CategoryAlert).max_triggered
          ∈ [(900 : Int), 1800])
  ∧ (⟨"Work", [900, 1800], 900, 1000, 1000⟩ : CategoryAlert).max_triggered
      ≤ (⟨"Work", [900, 1800], 900, 1000, 1000⟩ : CategoryAlert).max_triggered :=
  max_triggered_invariant "Work" [900, 1800]
    [AlertOp.update 1000 (Except.ok [("Work", 1000)]), AlertOp.check] [AlertOp.check]
    ⟨"Work", [900, 1800], 900, 1000, 1000⟩ ⟨"Work", [900, 1800], 900, 1000, 1000⟩
    (by decide) (by decide)

/-- C10: if the very first call's underlying operation raises, the
refresh timestamp has already been advanced, so every subsequent call
within the TTL window returns the initial cached value `None` without
invoking the underlying operation. -/
theorem cache_first_error_then_stale (ttl t₁ t₂ : Int) {α : Type} (g : Except Unit α)
    (h1 : ttl < t₁ - (cacheInit α).last_update) (h2 : t₂ - t₁ ≤ ttl) :
    (cache_ttl_call ttl (Except.error ()) t₁ (cacheInit α)).state.last_update = t₁
  ∧ cache_ttl_call ttl g t₂ (cache_ttl_call ttl (Except.error ()) t₁ (cacheInit α)).state
      = ⟨⟨t₁, none⟩, Except.ok none, false⟩ := by
  have h1x : ttl < t₁ - (⟨0, none⟩ : CacheState α).last_update := h1
  have hs : (cache_ttl_call ttl (Except.error ()) t₁ (cacheInit α)).state = ⟨t₁, none⟩ := by
    unfold cache_ttl_call cacheInit
    rw [if_pos h1x]
  refine ⟨by rw [hs], ?_⟩
  rw [hs]
  unfold cache_ttl_call
  rw [if_neg (show ¬ ttl < t₂ - t₁ by omega)]

/-- C10 witness: first call raises at `t = 100`; a second call at
`t = 130` (within the 60 s TTL) returns `none` without invoking. -/
theorem cache_first_error_then_stale_witness :
    (cache_ttl_call 60 (Except.error ()) 100 (cacheInit Int)).state.last_update = 100
  ∧ cache_ttl_call 60 (Except.ok 5 : Except Unit Int) 130
      (cache_ttl_call 60 (Except.error ()) 100 (cacheInit Int)).state
      = ⟨⟨100, none⟩, Except.ok none, false⟩ :=
  cache_first_error_then_stale 60 100 130 (Except.ok 5) (by decide) (by decide)

end AwNotify
